import Mathlib

/-!
Verification development for the ZGC heap orchestrator (zHeap.cpp).

The file shallowly embeds the phase-orchestration core of the concurrent,
region-based, relocating garbage collector: the ZHeap methods of
src/hotspot/share/gc/z/zHeap.cpp are translated into pure Lean functions over
an explicit collector state.  External subsystems (page allocator, mark
engine, relocation engine, reference processor, resurrection gate, statistics)
are represented by their observable effects: their results enter as explicit
parameters and their invocations are recorded in an event trace, so that the
ordering promises of the orchestrator are provable statements about lists.
-/

/-- The global collector phase (ZGlobalPhase).  zHeap.cpp uses exactly the
three values ZPhaseMark, ZPhaseMarkCompleted and ZPhaseRelocate. -/
inductive ZPhase where
  | mark
  | markCompleted
  | relocate
deriving Repr, DecidableEq

/-- A heap page (ZPage) with the attributes zHeap.cpp consults: identity,
the is_relocatable flag, the is_marked liveness bit and the is_allocating
flag. -/
structure ZPage where
  pid : Nat
  relocatable : Bool
  marked : Bool
  allocating : Bool
deriving Repr, DecidableEq

/-- A forwarding record (ZForwarding): one per page selected into the
relocation set. -/
structure ZForwarding where
  page : ZPage
deriving Repr, DecidableEq

/-- A GC cause (GCCause::Cause).  The first nine constructors are exactly the
cases listed in the switch of ZHeap::should_unload_class; the z_* causes
stand for the causes that fall through the switch. -/
inductive GCCause where
  | wb_young_gc
  | wb_conc_mark
  | wb_full_gc
  | dcmd_gc_run
  | java_lang_system_gc
  | full_gc_alot
  | scavenge_alot
  | jvmti_force_gc
  | metadata_GC_clear_soft_refs
  | z_timer
  | z_warmup
  | z_allocation_rate
  | z_allocation_stall
  | z_proactive
deriving Repr, DecidableEq

/-- The causes enumerated in the switch statement of
ZHeap::should_unload_class (zHeap.cpp lines 377-386). -/
def GCCause.isExplicit : GCCause → Bool
  | GCCause.wb_young_gc => true
  | GCCause.wb_conc_mark => true
  | GCCause.wb_full_gc => true
  | GCCause.dcmd_gc_run => true
  | GCCause.java_lang_system_gc => true
  | GCCause.full_gc_alot => true
  | GCCause.scavenge_alot => true
  | GCCause.jvmti_force_gc => true
  | GCCause.metadata_GC_clear_soft_refs => true
  | _ => false

/-- The global runtime configuration read by ZHeap::should_unload_class:
the ClassUnloading flag, the current GC cause, the ZUnloadClassesFrequency
option and the ZGlobalSeqNum cycle counter (a sequence number that starts at
1 and is incremented once per cycle). -/
structure ZGlobals where
  classUnloading : Bool
  gcCause : GCCause
  zUnloadClassesFrequency : Nat
  zGlobalSeqNum : Nat
deriving Repr, DecidableEq

/-- Observable calls the orchestrator makes into its collaborator
subsystems, in program order. -/
inductive Event where
  | pageTableInsert (p : ZPage)
  | pageTableRemove (p : ZPage)
  | allocatorFree (p : ZPage) (reclaimed : Bool)
  | enableDeferredDelete
  | disableDeferredDelete
  | selectCall (live : List ZPage)
  | forwardingInsert (f : ZForwarding)
  | forwardingRemove (f : ZForwarding)
  | resurrectionBlock
  | resurrectionUnblock
  | processReferences
  | processConcurrentWeakRoots
  | enqueueReferences
  | processWeakRoots
  | unloadPrepare
  | unloadExec
  | metaspaceComputeNewSize
  | statMarkEnd
  | statSelectRelocationSet
  | statRelocateEndSample
  | statRelocateEnd (success : Bool)
  | statHeapRelocateEnd
  | printHeap
  | printPage (p : ZPage)
  | verifyStrongRoots
  | verifyWeakRoots
  | verifyObjects
deriving Repr, DecidableEq

/-- The collector state owned by ZHeap: the global phase, the page table,
the forwarding table, the current relocation set, the deferred-delete
mode of the page allocator and the resurrection gate.  The deferred-delete flag
and the resurrection gate belong to external collaborators
(ZPageAllocator, ZResurrection); they are modelled from the spec as
booleans toggled by the corresponding calls. -/
structure ZHeapState where
  phase : ZPhase
  pageTable : List ZPage
  forwardingTable : List ZForwarding
  relocationSet : List ZForwarding
  deferredDelete : Bool
  resurrectionBlocked : Bool
deriving Repr, DecidableEq

/-- ZPageTable::insert — add a page table entry. -/
def ZPageTable.insert (pt : List ZPage) (page : ZPage) : List ZPage :=
  pt ++ [page]

/-- ZPageTable::remove — drop the entry for a page. -/
def ZPageTable.remove (pt : List ZPage) (page : ZPage) : List ZPage :=
  pt.filter (fun q => q ≠ page)

/-- ZForwardingTable::insert — add a forwarding record. -/
def ZForwardingTable.insert (ft : List ZForwarding) (f : ZForwarding) : List ZForwarding :=
  ft ++ [f]

/-- ZForwardingTable::remove — drop a forwarding record. -/
def ZForwardingTable.remove (ft : List ZForwarding) (f : ZForwarding) : List ZForwarding :=
  ft.filter (fun x => x ≠ f)

/-- ZHeap::alloc_page (zHeap.cpp lines 216-224): ask the page allocator for
a page; on a non-null result insert a page table entry and return the page,
on a null result return null.  The answer of the allocator is the explicit
argument. -/
def ZHeap.alloc_page (s : ZHeapState) (allocated : Option ZPage) :
    Option ZPage × ZHeapState × List Event :=
  match allocated with
  | none => (none, s, [])
  | some page =>
      (some page,
       { s with pageTable := ZPageTable.insert s.pageTable page },
       [Event.pageTableInsert page])

/-- ZHeap::free_page (zHeap.cpp lines 236-242): remove the page table entry,
then hand the page back to the page allocator. -/
def ZHeap.free_page (s : ZHeapState) (page : ZPage) (reclaimed : Bool) :
    ZHeapState × List Event :=
  ({ s with pageTable := ZPageTable.remove s.pageTable page },
   [Event.pageTableRemove page, Event.allocatorFree page reclaimed])

/-- ZHeap::mark_end (zHeap.cpp lines 290-319): ask the mark engine to
terminate (the verdict of the engine is the explicit argument `terminated`);
on failure return false at once; on success enter the MarkCompleted phase,
resize metaspace, update statistics, block resurrection, process weak roots
and prepare (but do not execute) unloading. -/
def ZHeap.mark_end (s : ZHeapState) (terminated : Bool) :
    Bool × ZHeapState × List Event :=
  if terminated = false then
    (false, s, [])
  else
    (true,
     { s with phase := ZPhase.markCompleted, resurrectionBlocked := true },
     [Event.metaspaceComputeNewSize, Event.statMarkEnd, Event.resurrectionBlock,
      Event.processWeakRoots, Event.unloadPrepare])

/-- ZHeap::should_unload_class (zHeap.cpp lines 371-390): false when the
ClassUnloading flag is off; true when the GC cause is in the explicit
switch; otherwise true when ZUnloadClassesFrequency is non-zero and divides
ZGlobalSeqNum - 1. -/
def ZHeap.should_unload_class (g : ZGlobals) : Bool :=
  if g.classUnloading = false then
    false
  else if g.gcCause.isExplicit = true then
    true
  else
    (g.zUnloadClassesFrequency != 0) &&
      ((g.zGlobalSeqNum - 1) % g.zUnloadClassesFrequency == 0)

/-- ZHeap::process_non_strong_references (zHeap.cpp lines 329-350): process
references and concurrent weak roots; when class unloading is pending,
return before unblocking resurrection; otherwise unblock resurrection and
then enqueue references. -/
def ZHeap.process_non_strong_references (g : ZGlobals) (s : ZHeapState) :
    ZHeapState × List Event :=
  let evs := [Event.processReferences, Event.processConcurrentWeakRoots]
  if ZHeap.should_unload_class g then
    (s, evs)
  else
    ({ s with resurrectionBlocked := false },
     evs ++ [Event.resurrectionUnblock, Event.enqueueReferences])

/-- ZHeap::finish_non_strong_references (zHeap.cpp lines 352-364):
guarantee(should_unload_class()) — a fatal check, modelled as `none` — then
unblock resurrection and enqueue references. -/
def ZHeap.finish_non_strong_references (g : ZGlobals) (s : ZHeapState) :
    Option (ZHeapState × List Event) :=
  if ZHeap.should_unload_class g = false then
    none
  else
    some ({ s with resurrectionBlocked := false },
          [Event.resurrectionUnblock, Event.enqueueReferences])

/-- ZHeap::unload_class (zHeap.cpp lines 366-369): run the unloader. -/
def ZHeap.unload_class (s : ZHeapState) : ZHeapState × List Event :=
  (s, [Event.unloadExec])

/-- Accumulator of the page classification loop inside
ZHeap::select_relocation_set: the evolving collector state, the pages
registered live with the selector, the pages registered garbage, and the
events emitted so far.  The live/garbage registers are modelled from the
spec: the ZRelocationSetSelector sources are outside the scope of this file and
the spec describes register_live_page / register_garbage_page as recording
the classification of each relocatable page. -/
structure SelectAcc where
  st : ZHeapState
  live : List ZPage
  garbage : List ZPage
  evs : List Event
deriving Repr, DecidableEq

/-- One iteration of the page table loop in ZHeap::select_relocation_set
(zHeap.cpp lines 399-415): skip non-relocatable pages; register marked pages
live; register unmarked pages garbage and reclaim them immediately via
ZHeap::free_page. -/
def selectStep (acc : SelectAcc) (page : ZPage) : SelectAcc :=
  if page.relocatable = false then
    acc
  else if page.marked = true then
    { acc with live := acc.live ++ [page] }
  else
    { st := (ZHeap.free_page acc.st page true).1,
      live := acc.live,
      garbage := acc.garbage ++ [page],
      evs := acc.evs ++ (ZHeap.free_page acc.st page true).2 }

/-- The pages a run of the classification loop registers live: the
relocatable, marked pages of the page table. -/
def registeredLivePages (s : ZHeapState) : List ZPage :=
  s.pageTable.filter (fun p => p.relocatable && p.marked)

/-- The tail of ZHeap::select_relocation_set after the classification loop
(zHeap.cpp lines 417-431): disable deferred delete, ask the selector to
select pages to relocate, insert a forwarding for each selected page into
the forwarding table, and update statistics.  The choice of the selector is
modelled from the spec as a policy function over the registered live pages
(ZRelocationSetSelector::select is outside the scope of this file; per the spec
it chooses a subset of the registered live pages). -/
def selectAssemble (policy : List ZPage → List ZPage) (acc : SelectAcc) :
    ZHeapState × List Event :=
  let s1 : ZHeapState := { acc.st with deferredDelete := false }
  let rset := (policy acc.live).map ZForwarding.mk
  let s2 : ZHeapState :=
    { s1 with relocationSet := rset,
              forwardingTable := rset.foldl ZForwardingTable.insert s1.forwardingTable }
  (s2,
   Event.enableDeferredDelete ::
     acc.evs ++
       Event.disableDeferredDelete ::
         Event.selectCall acc.live ::
           (rset.map Event.forwardingInsert ++ [Event.statSelectRelocationSet]))

/-- ZHeap::select_relocation_set (zHeap.cpp lines 392-432): enable deferred
delete, classify every relocatable page (reclaiming garbage pages on the
spot), then run the selection tail. -/
def ZHeap.select_relocation_set (policy : List ZPage → List ZPage)
    (s : ZHeapState) : ZHeapState × List Event :=
  selectAssemble policy
    (s.pageTable.foldl selectStep
      { st := { s with deferredDelete := true }, live := [], garbage := [],
        evs := [] })

/-- ZHeap::reset_relocation_set (zHeap.cpp lines 434-443): remove every
forwarding of the current relocation set from the forwarding table, then
reset the relocation set. -/
def ZHeap.reset_relocation_set (s : ZHeapState) : ZHeapState × List Event :=
  ({ s with
      forwardingTable := s.relocationSet.foldl ZForwardingTable.remove s.forwardingTable,
      relocationSet := [] },
   s.relocationSet.map Event.forwardingRemove)

/-- ZHeap::relocate (zHeap.cpp lines 467-476): run the relocation engine on
the relocation set (its verdict is the explicit argument `success`), then
record the post-cycle statistics — including the success flag — in both
cases.  The C++ function has return type void, modelled as `Unit`. -/
def ZHeap.relocate (s : ZHeapState) (success : Bool) :
    Unit × ZHeapState × List Event :=
  ((),
   s,
   [Event.statRelocateEndSample, Event.statRelocateEnd success,
    Event.statHeapRelocateEnd])

/-- ZHeap::print_extended_on (zHeap.cpp lines 521-538): print the heap
summary, call enable_deferred_delete, print every page, and then — at the
source line commented "Allow pages to be deleted" — call
enable_deferred_delete again (the source invokes enable, not disable, the
second time as well). -/
def ZHeap.print_extended_on (s : ZHeapState) : ZHeapState × List Event :=
  let s1 : ZHeapState := { s with deferredDelete := true }
  let printEvs := s1.pageTable.map Event.printPage
  let s2 : ZHeapState := { s1 with deferredDelete := true }
  (s2,
   Event.printHeap :: Event.enableDeferredDelete ::
     (printEvs ++ [Event.enableDeferredDelete]))

/-- ZHeap::verify (zHeap.cpp lines 561-576): guarantee(ZGlobalPhase ==
ZPhaseMarkCompleted) — a fatal check, modelled as `none` — then walk strong
roots and weak roots (ZVerifyRootsTask) and iterate all objects. -/
def ZHeap.verify (s : ZHeapState) : Option (List Event) :=
  if s.phase ≠ ZPhase.markCompleted then
    none
  else
    some [Event.verifyStrongRoots, Event.verifyWeakRoots, Event.verifyObjects]

/-- A live (relocatable and marked) demo page. -/
def pLive : ZPage := { pid := 1, relocatable := true, marked := true, allocating := false }

/-- A garbage (relocatable and unmarked) demo page. -/
def pGarbage : ZPage := { pid := 2, relocatable := true, marked := false, allocating := false }

/-- A non-relocatable demo page. -/
def pPinned : ZPage := { pid := 3, relocatable := false, marked := false, allocating := false }

/-- A demo forwarding for the live demo page. -/
def fLive : ZForwarding := { page := pLive }

/-- A demo collector state at the end of marking: phase MarkCompleted, one
live, one garbage and one pinned page. -/
def sDemo : ZHeapState :=
  { phase := ZPhase.markCompleted,
    pageTable := [pLive, pGarbage, pPinned],
    forwardingTable := [],
    relocationSet := [],
    deferredDelete := false,
    resurrectionBlocked := true }

/-- A demo collector state still in the Mark phase. -/
def sMarkPhase : ZHeapState :=
  { phase := ZPhase.mark,
    pageTable := [pLive, pGarbage],
    forwardingTable := [],
    relocationSet := [],
    deferredDelete := false,
    resurrectionBlocked := false }

/-- A demo collector state after relocation: phase Relocate, a populated
forwarding table and relocation set. -/
def sPostReloc : ZHeapState :=
  { phase := ZPhase.relocate,
    pageTable := [pPinned],
    forwardingTable := [fLive],
    relocationSet := [fLive],
    deferredDelete := false,
    resurrectionBlocked := false }

/-- Demo globals under which class unloading is pending (explicit cause,
ClassUnloading on). -/
def gUnload : ZGlobals :=
  { classUnloading := true, gcCause := GCCause.java_lang_system_gc,
    zUnloadClassesFrequency := 0, zGlobalSeqNum := 1 }

/-- Demo globals under which class unloading is not pending (implicit cause,
frequency 0). -/
def gNoUnload : ZGlobals :=
  { classUnloading := true, gcCause := GCCause.z_timer,
    zUnloadClassesFrequency := 0, zGlobalSeqNum := 1 }

/-! Helper lemmas about the classification loop of select_relocation_set. -/

theorem selectStep_pageTable_subset (acc : SelectAcc) (page q : ZPage)
    (hq : q ∈ (selectStep acc page).st.pageTable) : q ∈ acc.st.pageTable := by
  by_cases hr : page.relocatable = false
  · simpa [selectStep, hr] using hq
  · by_cases hm : page.marked = true
    · simpa [selectStep, hr, hm] using hq
    · simp only [selectStep, hr, hm, if_false, ZHeap.free_page,
        ZPageTable.remove] at hq
      exact List.mem_of_mem_filter hq

theorem selectFold_pageTable_subset (l : List ZPage) (acc : SelectAcc) (q : ZPage)
    (hq : q ∈ (l.foldl selectStep acc).st.pageTable) : q ∈ acc.st.pageTable := by
  induction l generalizing acc with
  | nil => simpa using hq
  | cons p t ih =>
      exact selectStep_pageTable_subset acc p q (ih (selectStep acc p) hq)

theorem selectFold_garbage_removed (l : List ZPage) (acc : SelectAcc) (p : ZPage)
    (hp : p ∈ l) (hrel : p.relocatable = true) (hmark : p.marked = false) :
    p ∉ (l.foldl selectStep acc).st.pageTable := by
  induction l generalizing acc with
  | nil => cases hp
  | cons q t ih =>
      rcases List.mem_cons.mp hp with hq | hq
      · subst hq
        intro hmem
        have h1 : p ∈ (selectStep acc p).st.pageTable :=
          selectFold_pageTable_subset t (selectStep acc p) p hmem
        have hr : ¬ p.relocatable = false := by simp [hrel]
        have hm : ¬ p.marked = true := by simp [hmark]
        simp only [selectStep, if_neg hr, if_neg hm, ZHeap.free_page,
          ZPageTable.remove, List.mem_filter] at h1
        simp at h1
      · exact ih (selectStep acc q) hq

theorem selectFold_live (l : List ZPage) (acc : SelectAcc) :
    (l.foldl selectStep acc).live =
      acc.live ++ l.filter (fun p => p.relocatable && p.marked) := by
  induction l generalizing acc with
  | nil => simp
  | cons q t ih =>
      by_cases hr : q.relocatable = false
      · simp [List.foldl_cons, selectStep, hr, ih]
      · by_cases hm : q.marked = true
        · have hrt : q.relocatable = true := by
            cases h : q.relocatable
            · exact absurd h hr
            · rfl
          simp [List.foldl_cons, selectStep, hr, hm, ih, hrt]
        · have hmf : q.marked = false := by
            cases h : q.marked
            · rfl
            · exact absurd h hm
          simp [List.foldl_cons, selectStep, hr, hm, ih, hmf]

theorem selectStep_evs_mono (acc : SelectAcc) (page : ZPage) (e : Event)
    (he : e ∈ acc.evs) : e ∈ (selectStep acc page).evs := by
  by_cases hr : page.relocatable = false
  · simpa [selectStep, hr] using he
  · by_cases hm : page.marked = true
    · simpa [selectStep, hr, hm] using he
    · simp only [selectStep, hr, hm, if_false]
      exact List.mem_append_left _ he

theorem selectFold_evs_mono (l : List ZPage) (acc : SelectAcc) (e : Event)
    (he : e ∈ acc.evs) : e ∈ (l.foldl selectStep acc).evs := by
  induction l generalizing acc with
  | nil => simpa using he
  | cons q t ih =>
      exact ih (selectStep acc q) (selectStep_evs_mono acc q e he)

theorem selectFold_garbage_events (l : List ZPage) (acc : SelectAcc) (p : ZPage)
    (hp : p ∈ l) (hrel : p.relocatable = true) (hmark : p.marked = false) :
    Event.pageTableRemove p ∈ (l.foldl selectStep acc).evs ∧
      Event.allocatorFree p true ∈ (l.foldl selectStep acc).evs := by
  induction l generalizing acc with
  | nil => cases hp
  | cons q t ih =>
      rcases List.mem_cons.mp hp with hq | hq
      · subst hq
        have hr : ¬ p.relocatable = false := by simp [hrel]
        have hm : ¬ p.marked = true := by simp [hmark]
        have h1 : Event.pageTableRemove p ∈ (selectStep acc p).evs := by
          simp [selectStep, if_neg hr, if_neg hm, ZHeap.free_page]
        have h2 : Event.allocatorFree p true ∈ (selectStep acc p).evs := by
          simp [selectStep, if_neg hr, if_neg hm, ZHeap.free_page]
        exact ⟨selectFold_evs_mono t (selectStep acc p) _ h1,
               selectFold_evs_mono t (selectStep acc p) _ h2⟩
      · exact ih (selectStep acc q) hq

theorem selectStep_phase (acc : SelectAcc) (page : ZPage) :
    (selectStep acc page).st.phase = acc.st.phase := by
  by_cases hr : page.relocatable = false
  · simp [selectStep, hr]
  · by_cases hm : page.marked = true
    · simp [selectStep, hr, hm]
    · simp [selectStep, hr, hm, ZHeap.free_page]

theorem selectFold_phase (l : List ZPage) (acc : SelectAcc) :
    (l.foldl selectStep acc).st.phase = acc.st.phase := by
  induction l generalizing acc with
  | nil => simp
  | cons q t ih => rw [List.foldl_cons, ih, selectStep_phase]

theorem selectStep_phase_comm (acc : SelectAcc) (q : ZPage) (p : ZPhase) :
    selectStep { acc with st := { acc.st with phase := p } } q =
      { selectStep acc q with st := { (selectStep acc q).st with phase := p } } := by
  by_cases hr : q.relocatable = false
  · simp [selectStep, hr]
  · by_cases hm : q.marked = true
    · simp [selectStep, hr, hm]
    · simp [selectStep, hr, hm, ZHeap.free_page, ZPageTable.remove]

theorem selectFold_phase_comm (l : List ZPage) (acc : SelectAcc) (p : ZPhase) :
    l.foldl selectStep { acc with st := { acc.st with phase := p } } =
      { l.foldl selectStep acc with
          st := { (l.foldl selectStep acc).st with phase := p } } := by
  induction l generalizing acc with
  | nil => simp
  | cons q t ih =>
      rw [List.foldl_cons, selectStep_phase_comm, ih, List.foldl_cons]

/-! Helper lemmas about the forwarding-removal fold of reset_relocation_set. -/

theorem removeFold_not_mem (l : List ZForwarding) (ft : List ZForwarding)
    (f : ZForwarding) (hf : f ∉ ft) :
    f ∉ l.foldl ZForwardingTable.remove ft := by
  induction l generalizing ft with
  | nil => simpa using hf
  | cons g t ih =>
      refine ih (ZForwardingTable.remove ft g) ?_
      intro hmem
      exact hf (List.mem_of_mem_filter hmem)

theorem removeFold_mem_removed (l : List ZForwarding) (ft : List ZForwarding)
    (f : ZForwarding) (hf : f ∈ l) :
    f ∉ l.foldl ZForwardingTable.remove ft := by
  induction l generalizing ft with
  | nil => cases hf
  | cons g t ih =>
      rcases List.mem_cons.mp hf with hg | hg
      · subst hg
        refine removeFold_not_mem t (ZForwardingTable.remove ft f) f ?_
        intro hmem
        simp [ZForwardingTable.remove] at hmem
      · exact ih (ZForwardingTable.remove ft g) hg

theorem map_printPage_count_enable (l : List ZPage) :
    (l.map Event.printPage).count Event.enableDeferredDelete = 0 := by
  induction l with
  | nil => rfl
  | cons q t ih => simp [List.count_cons, ih]

/-! Claim theorems. -/

/-- Claim C2: mark_end returns false exactly when the mark engine reports
incomplete termination, and then the collector state is unchanged (in
particular the phase is not advanced); when it returns true it has set the
phase to MarkCompleted, blocked resurrection, processed weak roots and
prepared — but not executed — unloading. -/
theorem ZHeap.mark_end_contract (s : ZHeapState) :
    ZHeap.mark_end s false = (false, s, []) ∧
    (ZHeap.mark_end s true).1 = true ∧
    (ZHeap.mark_end s true).2.1 =
      { s with phase := ZPhase.markCompleted, resurrectionBlocked := true } ∧
    Event.resurrectionBlock ∈ (ZHeap.mark_end s true).2.2 ∧
    Event.processWeakRoots ∈ (ZHeap.mark_end s true).2.2 ∧
    Event.unloadPrepare ∈ (ZHeap.mark_end s true).2.2 ∧
    Event.unloadExec ∉ (ZHeap.mark_end s true).2.2 := by
  refine ⟨rfl, rfl, rfl, ?_, ?_, ?_, ?_⟩ <;> simp [ZHeap.mark_end]

/-- Witness for C2 at the mid-mark demo state. -/
theorem ZHeap.mark_end_contract_witness :
    ZHeap.mark_end sMarkPhase false = (false, sMarkPhase, []) ∧
    (ZHeap.mark_end sMarkPhase true).1 = true ∧
    (ZHeap.mark_end sMarkPhase true).2.1 =
      { sMarkPhase with phase := ZPhase.markCompleted, resurrectionBlocked := true } ∧
    Event.resurrectionBlock ∈ (ZHeap.mark_end sMarkPhase true).2.2 ∧
    Event.processWeakRoots ∈ (ZHeap.mark_end sMarkPhase true).2.2 ∧
    Event.unloadPrepare ∈ (ZHeap.mark_end sMarkPhase true).2.2 ∧
    Event.unloadExec ∉ (ZHeap.mark_end sMarkPhase true).2.2 :=
  ZHeap.mark_end_contract sMarkPhase

/-- Claim C5: with class unloading pending, process_non_strong_references
returns after reference processing without unblocking resurrection and
without enqueuing references, and finish_non_strong_references unblocks
resurrection and then enqueues references; without pending unloading,
process_non_strong_references itself unblocks and enqueues, and
finish_non_strong_references halts at its fatal guarantee. -/
theorem ZHeap.non_strong_references_two_phase (g : ZGlobals) (s : ZHeapState) :
    (ZHeap.should_unload_class g = true →
      ZHeap.process_non_strong_references g s =
        (s, [Event.processReferences, Event.processConcurrentWeakRoots]) ∧
      ZHeap.finish_non_strong_references g s =
        some ({ s with resurrectionBlocked := false },
              [Event.resurrectionUnblock, Event.enqueueReferences])) ∧
    (ZHeap.should_unload_class g = false →
      ZHeap.process_non_strong_references g s =
        ({ s with resurrectionBlocked := false },
         [Event.processReferences, Event.processConcurrentWeakRoots,
          Event.resurrectionUnblock, Event.enqueueReferences]) ∧
      ZHeap.finish_non_strong_references g s = none) := by
  constructor
  · intro h
    exact ⟨by simp [ZHeap.process_non_strong_references, h],
           by simp [ZHeap.finish_non_strong_references, h]⟩
  · intro h
    exact ⟨by simp [ZHeap.process_non_strong_references, h],
           by simp [ZHeap.finish_non_strong_references, h]⟩

/-- Witness for C5 under unload-pending and unload-not-pending globals. -/
theorem ZHeap.non_strong_references_two_phase_witness :
    (ZHeap.process_non_strong_references gUnload sDemo =
        (sDemo, [Event.processReferences, Event.processConcurrentWeakRoots]) ∧
      ZHeap.finish_non_strong_references gUnload sDemo =
        some ({ sDemo with resurrectionBlocked := false },
              [Event.resurrectionUnblock, Event.enqueueReferences])) ∧
    (ZHeap.process_non_strong_references gNoUnload sDemo =
        ({ sDemo with resurrectionBlocked := false },
         [Event.processReferences, Event.processConcurrentWeakRoots,
          Event.resurrectionUnblock, Event.enqueueReferences]) ∧
      ZHeap.finish_non_strong_references gNoUnload sDemo = none) :=
  ⟨(ZHeap.non_strong_references_two_phase gUnload sDemo).1 (by decide),
   (ZHeap.non_strong_references_two_phase gNoUnload sDemo).2 (by decide)⟩

/-- Counterexample for C6: ZHeap::relocate has return type void — at a
concrete state, the value returned to the caller (and the resulting
collector state) is identical whether the relocation engine reports success
or failure, so no success/failure result reaches the caller; the flag is
only recorded into the relocation statistics. -/
theorem ZHeap.relocate_void_return_cex :
    (ZHeap.relocate sPostReloc false).1 = (ZHeap.relocate sPostReloc true).1 ∧
    (ZHeap.relocate sPostReloc false).2.1 = (ZHeap.relocate sPostReloc true).2.1 ∧
    Event.statRelocateEnd false ∈ (ZHeap.relocate sPostReloc false).2.2 := by
  decide

/-- Claim C6 (amended): relocate() does not return the outcome of the copy to its
caller (its return type is void); the success/failure of the concurrent
copy — failure indicating an allocation stall — is recorded into the
relocation statistics via set_at_relocate_end, and post-cycle statistics
are recorded in both the success and the failure case. -/
theorem ZHeap.relocate_records_stats (s : ZHeapState) (success : Bool) :
    Event.statRelocateEnd success ∈ (ZHeap.relocate s success).2.2 ∧
    Event.statHeapRelocateEnd ∈ (ZHeap.relocate s success).2.2 ∧
    Event.statRelocateEndSample ∈ (ZHeap.relocate s success).2.2 ∧
    (ZHeap.relocate s success).1 = (ZHeap.relocate s (!success)).1 ∧
    (ZHeap.relocate s success).2.1 = s := by
  refine ⟨?_, ?_, ?_, rfl, rfl⟩ <;> simp [ZHeap.relocate]

/-- Witness for the amended C6 theorem at a concrete failed relocation. -/
theorem ZHeap.relocate_records_stats_witness :
    Event.statRelocateEnd false ∈ (ZHeap.relocate sDemo false).2.2 ∧
    Event.statHeapRelocateEnd ∈ (ZHeap.relocate sDemo false).2.2 ∧
    Event.statRelocateEndSample ∈ (ZHeap.relocate sDemo false).2.2 ∧
    (ZHeap.relocate sDemo false).1 = (ZHeap.relocate sDemo (!false)).1 ∧
    (ZHeap.relocate sDemo false).2.1 = sDemo :=
  ZHeap.relocate_records_stats sDemo false

/-- Claim C8: alloc_page inserts the new page into the page table iff the
underlying allocation succeeded; on a null result it returns null with the
page table unchanged; free_page removes the page table entry before the
page is handed back to the allocator (the remove event precedes the
allocator-free event in the call trace). -/
theorem ZHeap.page_table_alloc_free_contract (s : ZHeapState) (page : ZPage)
    (recl : Bool) :
    ZHeap.alloc_page s none = (none, s, []) ∧
    (ZHeap.alloc_page s (some page)).1 = some page ∧
    (ZHeap.alloc_page s (some page)).2.1.pageTable = s.pageTable ++ [page] ∧
    (ZHeap.free_page s page recl).2 =
      [Event.pageTableRemove page, Event.allocatorFree page recl] ∧
    (ZHeap.free_page s page recl).1.pageTable = ZPageTable.remove s.pageTable page ∧
    page ∉ (ZHeap.free_page s page recl).1.pageTable := by
  refine ⟨rfl, rfl, rfl, rfl, rfl, ?_⟩
  simp [ZHeap.free_page, ZPageTable.remove, List.mem_filter]

/-- Witness for C8 at a concrete state and page. -/
theorem ZHeap.page_table_alloc_free_contract_witness :
    ZHeap.alloc_page sDemo none = (none, sDemo, []) ∧
    (ZHeap.alloc_page sDemo (some pGarbage)).1 = some pGarbage ∧
    (ZHeap.alloc_page sDemo (some pGarbage)).2.1.pageTable =
      sDemo.pageTable ++ [pGarbage] ∧
    (ZHeap.free_page sDemo pGarbage true).2 =
      [Event.pageTableRemove pGarbage, Event.allocatorFree pGarbage true] ∧
    (ZHeap.free_page sDemo pGarbage true).1.pageTable =
      ZPageTable.remove sDemo.pageTable pGarbage ∧
    pGarbage ∉ (ZHeap.free_page sDemo pGarbage true).1.pageTable :=
  ZHeap.page_table_alloc_free_contract sDemo pGarbage true

/-- Claim C9: verify() completes only in the MarkCompleted phase; in any
other phase its guarantee fails before any root or object is walked (no
walking events are produced), and in MarkCompleted it walks strong roots,
weak roots and all objects. -/
theorem ZHeap.verify_requires_mark_completed (s : ZHeapState) :
    (s.phase ≠ ZPhase.markCompleted → ZHeap.verify s = none) ∧
    (s.phase = ZPhase.markCompleted →
      ZHeap.verify s =
        some [Event.verifyStrongRoots, Event.verifyWeakRoots, Event.verifyObjects]) := by
  constructor
  · intro h; simp [ZHeap.verify, h]
  · intro h; simp [ZHeap.verify, h]

/-- Witness for C9: verify halts in the Mark phase and runs in the
MarkCompleted phase. -/
theorem ZHeap.verify_requires_mark_completed_witness :
    ZHeap.verify sMarkPhase = none ∧
    ZHeap.verify sDemo =
      some [Event.verifyStrongRoots, Event.verifyWeakRoots, Event.verifyObjects] :=
  ⟨(ZHeap.verify_requires_mark_completed sMarkPhase).1 (by decide),
   (ZHeap.verify_requires_mark_completed sDemo).2 (by decide)⟩

/-- Claim C10: after print_extended_on, the deferred-delete
mode of the page allocator is left enabled: the trace holds two enable_deferred_delete calls and
no disable_deferred_delete call, so the enable performed before the page
iteration is never undone. -/
theorem ZHeap.print_extended_on_deferred_delete_left_enabled (s : ZHeapState) :
    (ZHeap.print_extended_on s).1.deferredDelete = true ∧
    ((ZHeap.print_extended_on s).2.count Event.enableDeferredDelete) = 2 ∧
    Event.disableDeferredDelete ∉ (ZHeap.print_extended_on s).2 := by
  refine ⟨rfl, ?_, ?_⟩
  · simp [ZHeap.print_extended_on, List.count_cons, List.count_append,
      map_printPage_count_enable]
  · simp [ZHeap.print_extended_on]

/-- Witness for C10 at a concrete state. -/
theorem ZHeap.print_extended_on_deferred_delete_left_enabled_witness :
    (ZHeap.print_extended_on sDemo).1.deferredDelete = true ∧
    ((ZHeap.print_extended_on sDemo).2.count Event.enableDeferredDelete) = 2 ∧
    Event.disableDeferredDelete ∉ (ZHeap.print_extended_on sDemo).2 :=
  ZHeap.print_extended_on_deferred_delete_left_enabled sDemo

/-- Claim C1: every relocatable, unmarked (garbage) page iterated by
select_relocation_set is freed — removed from the page table — before
select() is invoked (its page-table-remove and allocator-free events
precede the select call in the trace, and no allocator-free occurs after
it), and the resulting relocation set holds only pages registered live, so
no garbage page ever appears in it. -/
theorem ZHeap.select_relocation_set_reclaims_garbage (s : ZHeapState)
    (policy : List ZPage → List ZPage)
    (hpol : ∀ l x, x ∈ policy l → x ∈ l) :
    (∀ p, p ∈ s.pageTable → p.relocatable = true → p.marked = false →
        p ∉ (ZHeap.select_relocation_set policy s).1.pageTable) ∧
    (∀ f, f ∈ (ZHeap.select_relocation_set policy s).1.relocationSet →
        f.page ∈ registeredLivePages s ∧ f.page.marked = true) ∧
    (∃ pre post,
        (ZHeap.select_relocation_set policy s).2 =
          pre ++ Event.selectCall (registeredLivePages s) :: post ∧
        (∀ p, p ∈ s.pageTable → p.relocatable = true → p.marked = false →
            Event.pageTableRemove p ∈ pre ∧ Event.allocatorFree p true ∈ pre) ∧
        (∀ p b, Event.allocatorFree p b ∉ post)) := by
  have hlive :
      (s.pageTable.foldl selectStep
        { st := { s with deferredDelete := true }, live := [], garbage := [],
          evs := [] }).live = registeredLivePages s := by
    rw [selectFold_live]
    simp [registeredLivePages]
  refine ⟨?_, ?_, ?_⟩
  · intro p hp hrel hmark
    exact selectFold_garbage_removed s.pageTable _ p hp hrel hmark
  · intro f hf
    have hf2 : f ∈ (policy (s.pageTable.foldl selectStep
        { st := { s with deferredDelete := true }, live := [], garbage := [],
          evs := [] }).live).map ZForwarding.mk := hf
    rw [hlive] at hf2
    rcases List.mem_map.mp hf2 with ⟨x, hx, hxf⟩
    have hx2 : x ∈ registeredLivePages s := hpol _ x hx
    have hx3 : x.marked = true := by
      have := (List.mem_filter.mp hx2).2
      simp at this
      exact this.2
    rw [← hxf]
    exact ⟨hx2, hx3⟩
  · refine ⟨Event.enableDeferredDelete ::
        ((s.pageTable.foldl selectStep
          { st := { s with deferredDelete := true }, live := [], garbage := [],
            evs := [] }).evs ++ [Event.disableDeferredDelete]),
      ((policy (registeredLivePages s)).map ZForwarding.mk).map
          Event.forwardingInsert ++ [Event.statSelectRelocationSet], ?_, ?_, ?_⟩
    · show Event.enableDeferredDelete ::
          (s.pageTable.foldl selectStep _).evs ++
            Event.disableDeferredDelete ::
              Event.selectCall (s.pageTable.foldl selectStep _).live ::
                (((policy (s.pageTable.foldl selectStep _).live).map
                    ZForwarding.mk).map Event.forwardingInsert ++
                  [Event.statSelectRelocationSet]) = _
      rw [hlive]
      simp
    · intro p hp hrel hmark
      have h := selectFold_garbage_events s.pageTable
        { st := { s with deferredDelete := true }, live := [], garbage := [],
          evs := [] } p hp hrel hmark
      constructor
      · exact List.mem_cons_of_mem _ (List.mem_append_left _ h.1)
      · exact List.mem_cons_of_mem _ (List.mem_append_left _ h.2)
    · intro p b hmem
      rcases List.mem_append.mp hmem with h | h
      · rcases List.mem_map.mp h with ⟨f, _, hfe⟩
        cases hfe
      · simp at h

/-- Witness for C1 at the demo state with the identity selection policy:
the garbage page is gone from the page table before select, and only live
pages are candidates. -/
theorem ZHeap.select_relocation_set_reclaims_garbage_witness :
    (∀ l x, x ∈ (fun (ps : List ZPage) => ps) l → x ∈ l) ∧
    ((∀ p, p ∈ sDemo.pageTable → p.relocatable = true → p.marked = false →
        p ∉ (ZHeap.select_relocation_set (fun ps => ps) sDemo).1.pageTable) ∧
    (∀ f, f ∈ (ZHeap.select_relocation_set (fun ps => ps) sDemo).1.relocationSet →
        f.page ∈ registeredLivePages sDemo ∧ f.page.marked = true) ∧
    (∃ pre post,
        (ZHeap.select_relocation_set (fun ps => ps) sDemo).2 =
          pre ++ Event.selectCall (registeredLivePages sDemo) :: post ∧
        (∀ p, p ∈ sDemo.pageTable → p.relocatable = true → p.marked = false →
            Event.pageTableRemove p ∈ pre ∧ Event.allocatorFree p true ∈ pre) ∧
        (∀ p b, Event.allocatorFree p b ∉ post))) :=
  ⟨fun _ _ hx => hx,
   ZHeap.select_relocation_set_reclaims_garbage sDemo (fun ps => ps)
     (fun _ _ hx => hx)⟩

/-- Counterexample for C3: select_relocation_set contains no phase
assertion.  Invoked at a concrete state still in the Mark phase, it does
not halt: it runs its classification loop, frees the garbage page, selects
a page and emits its full trace. -/
theorem ZHeap.select_relocation_set_no_phase_check_cex :
    sMarkPhase.phase ≠ ZPhase.markCompleted ∧
    (ZHeap.select_relocation_set (fun ps => ps) sMarkPhase).1.relocationSet =
      [{ page := pLive }] ∧
    (ZHeap.select_relocation_set (fun ps => ps) sMarkPhase).1.pageTable = [pLive] ∧
    (ZHeap.select_relocation_set (fun ps => ps) sMarkPhase).2 ≠ [] := by
  decide

/-- Claim C3 (amended): select_relocation_set performs no phase-precondition
check; its behaviour is independent of the global phase — run in any phase
it produces the identical trace and identical resulting tables, leaving the
phase itself untouched, rather than halting with a fatal assertion. -/
theorem ZHeap.select_relocation_set_phase_independent
    (policy : List ZPage → List ZPage) (s : ZHeapState) (p : ZPhase) :
    ZHeap.select_relocation_set policy { s with phase := p } =
      ({ (ZHeap.select_relocation_set policy s).1 with phase := p },
       (ZHeap.select_relocation_set policy s).2) := by
  have hcomm := selectFold_phase_comm s.pageTable
    { st := { s with deferredDelete := true }, live := [], garbage := [],
      evs := [] } p
  have hassemble : ∀ acc : SelectAcc,
      selectAssemble policy { acc with st := { acc.st with phase := p } } =
        ({ (selectAssemble policy acc).1 with phase := p },
         (selectAssemble policy acc).2) := fun acc => rfl
  have h1 : ZHeap.select_relocation_set policy { s with phase := p } =
      selectAssemble policy
        (List.foldl selectStep
          { ({ st := { s with deferredDelete := true }, live := [],
               garbage := [], evs := [] } : SelectAcc) with
             st := { ({ st := { s with deferredDelete := true }, live := [],
                        garbage := [], evs := [] } : SelectAcc).st with
                       phase := p } } s.pageTable) := rfl
  rw [h1, hcomm, hassemble]
  rfl

/-- Witness for the amended C3 theorem: running select_relocation_set on the
demo state with its phase overwritten to Mark yields the same trace and
tables as in MarkCompleted. -/
theorem ZHeap.select_relocation_set_phase_independent_witness :
    ZHeap.select_relocation_set (fun ps => ps) { sDemo with phase := ZPhase.mark } =
      ({ (ZHeap.select_relocation_set (fun ps => ps) sDemo).1 with
           phase := ZPhase.mark },
       (ZHeap.select_relocation_set (fun ps => ps) sDemo).2) :=
  ZHeap.select_relocation_set_phase_independent (fun ps => ps) sDemo ZPhase.mark

/-- Counterexample for C4: with the ClassUnloading flag disabled,
should_unload_class returns false even for a cause in the fixed
explicit/administrative set (System.gc), so the explicit causes are not
unconditional. -/
theorem ZHeap.should_unload_class_flag_gate_cex :
    GCCause.isExplicit GCCause.java_lang_system_gc = true ∧
    ZHeap.should_unload_class
      { classUnloading := false, gcCause := GCCause.java_lang_system_gc,
        zUnloadClassesFrequency := 1, zGlobalSeqNum := 1 } = false := by
  decide

/-- Claim C4 (amended): provided the ClassUnloading flag is enabled,
should_unload_class is true unconditionally for the fixed set of
explicit/administrative causes and otherwise true exactly once every N
cycles for configured frequency N (with N=0 disabling frequency-based
unloading); with ClassUnloading disabled it is always false. -/
theorem ZHeap.should_unload_class_characterization (c : GCCause) (n seq : Nat)
    (hc : c.isExplicit = false) (hn : 0 < n) (hseq : 1 ≤ seq) :
    (∀ f m, ZHeap.should_unload_class
        { classUnloading := false, gcCause := c, zUnloadClassesFrequency := f,
          zGlobalSeqNum := m } = false) ∧
    (∀ cexp : GCCause, cexp.isExplicit = true →
      ZHeap.should_unload_class
        { classUnloading := true, gcCause := cexp, zUnloadClassesFrequency := n,
          zGlobalSeqNum := seq } = true) ∧
    ZHeap.should_unload_class
      { classUnloading := true, gcCause := c, zUnloadClassesFrequency := 0,
        zGlobalSeqNum := seq } = false ∧
    (∃! j, j < n ∧ ZHeap.should_unload_class
        { classUnloading := true, gcCause := c, zUnloadClassesFrequency := n,
          zGlobalSeqNum := seq + j } = true) := by
  have hn' : n ≠ 0 := by omega
  have key : ∀ j, (ZHeap.should_unload_class
      { classUnloading := true, gcCause := c, zUnloadClassesFrequency := n,
        zGlobalSeqNum := seq + j } = true) ↔ ((seq - 1) + j) % n = 0 := by
    intro j
    have hadd : seq + j - 1 = (seq - 1) + j := by omega
    simp [ZHeap.should_unload_class, hc, hadd, hn']
  obtain ⟨r, hR⟩ : ∃ r, (seq - 1) % n = r := ⟨_, rfl⟩
  have hrlt : r < n := by rw [← hR]; exact Nat.mod_lt _ hn
  refine ⟨fun f m => rfl, ?_, ?_, ?_⟩
  · intro cexp hcexp
    simp [ZHeap.should_unload_class, hcexp]
  · simp [ZHeap.should_unload_class, hc]
  · refine ⟨if r = 0 then 0 else n - r, ⟨?_, ?_⟩, ?_⟩
    · by_cases h0 : r = 0
      · rw [if_pos h0]; omega
      · rw [if_neg h0]; omega
    · rw [key]
      by_cases h0 : r = 0
      · rw [if_pos h0, Nat.add_zero, hR]
        exact h0
      · rw [if_neg h0, Nat.add_mod, hR,
          Nat.mod_eq_of_lt (show n - r < n by omega)]
        have hsum : r + (n - r) = n := by omega
        rw [hsum, Nat.mod_self]
    · intro y hy
      obtain ⟨hylt, htr⟩ := hy
      rw [key] at htr
      rw [Nat.add_mod, hR, Nat.mod_eq_of_lt hylt] at htr
      rcases Nat.lt_or_ge (r + y) n with hlt | hge
      · rw [Nat.mod_eq_of_lt hlt] at htr
        have hr0 : r = 0 := by omega
        rw [if_pos hr0]
        omega
      · rw [Nat.mod_eq_sub_mod hge,
          Nat.mod_eq_of_lt (show r + y - n < n by omega)] at htr
        have hrn0 : r ≠ 0 := by
          intro h0
          omega
        rw [if_neg hrn0]
        omega

/-- Witness for the amended C4 theorem: implicit cause, frequency 3, starting
sequence number 1. -/
theorem ZHeap.should_unload_class_characterization_witness :
    GCCause.isExplicit GCCause.z_timer = false ∧ 0 < 3 ∧ 1 ≤ 1 ∧
    ((∀ f m, ZHeap.should_unload_class
        { classUnloading := false, gcCause := GCCause.z_timer,
          zUnloadClassesFrequency := f, zGlobalSeqNum := m } = false) ∧
    (∀ cexp : GCCause, cexp.isExplicit = true →
      ZHeap.should_unload_class
        { classUnloading := true, gcCause := cexp, zUnloadClassesFrequency := 3,
          zGlobalSeqNum := 1 } = true) ∧
    ZHeap.should_unload_class
      { classUnloading := true, gcCause := GCCause.z_timer,
        zUnloadClassesFrequency := 0, zGlobalSeqNum := 1 } = false ∧
    (∃! j, j < 3 ∧ ZHeap.should_unload_class
        { classUnloading := true, gcCause := GCCause.z_timer,
          zUnloadClassesFrequency := 3, zGlobalSeqNum := 1 + j } = true)) :=
  ⟨rfl, by decide, by decide,
   ZHeap.should_unload_class_characterization GCCause.z_timer 3 1 rfl
     (by decide) (by decide)⟩

/-- Counterexample for C7: at a concrete post-relocation state,
reset_relocation_set empties the forwarding table and the relocation set
but leaves the global phase exactly as it found it — still Relocate.  The
phase enum of the code has no Idle value, and no transition to any further
state occurs on return. -/
theorem ZHeap.reset_relocation_set_no_idle_cex :
    (ZHeap.reset_relocation_set sPostReloc).1.phase = ZPhase.relocate ∧
    (ZHeap.reset_relocation_set sPostReloc).1.phase = sPostReloc.phase ∧
    (ZHeap.reset_relocation_set sPostReloc).1.forwardingTable = [] ∧
    (ZHeap.reset_relocation_set sPostReloc).1.relocationSet = [] := by
  decide

/-- Claim C7 (amended): every Forwarding inserted into the ForwardingTable
at select_relocation_set (one per selected page) is removed from the
ForwardingTable by reset_relocation_set, which also empties the
RelocationSet; the global phase is not modified — the collector simply
stays in its current phase until mark_start of the next cycle. -/
theorem ZHeap.reset_relocation_set_clears (s : ZHeapState)
    (policy : List ZPage → List ZPage) :
    (∀ f, f ∈ (ZHeap.select_relocation_set policy s).1.relocationSet →
        f ∉ (ZHeap.reset_relocation_set
              (ZHeap.select_relocation_set policy s).1).1.forwardingTable) ∧
    (ZHeap.reset_relocation_set
        (ZHeap.select_relocation_set policy s).1).1.relocationSet = [] ∧
    (ZHeap.reset_relocation_set
        (ZHeap.select_relocation_set policy s).1).1.phase = s.phase := by
  refine ⟨?_, rfl, ?_⟩
  · intro f hf
    exact removeFold_mem_removed
      (ZHeap.select_relocation_set policy s).1.relocationSet
      (ZHeap.select_relocation_set policy s).1.forwardingTable f hf
  · show (ZHeap.select_relocation_set policy s).1.phase = s.phase
    exact selectFold_phase s.pageTable
      { st := { s with deferredDelete := true }, live := [], garbage := [],
        evs := [] }

/-- Witness for the amended C7 theorem at the demo state with the identity
policy. -/
theorem ZHeap.reset_relocation_set_clears_witness :
    (∀ f, f ∈ (ZHeap.select_relocation_set (fun ps => ps) sDemo).1.relocationSet →
        f ∉ (ZHeap.reset_relocation_set
              (ZHeap.select_relocation_set (fun ps => ps) sDemo).1).1.forwardingTable) ∧
    (ZHeap.reset_relocation_set
        (ZHeap.select_relocation_set (fun ps => ps) sDemo).1).1.relocationSet = [] ∧
    (ZHeap.reset_relocation_set
        (ZHeap.select_relocation_set (fun ps => ps) sDemo).1).1.phase = sDemo.phase :=
  ZHeap.reset_relocation_set_clears sDemo (fun ps => ps)
